import Mathlib

/-!
Shallow embedding of the OpenVDAFS decode pipeline (reader.py, curve_eval.py,
surf_eval.py, face_eval.py, index.py, query.py) and proofs about it.

Machine numbers are modelled exactly: Python ints as `Int`, Python floats as
`ℚ` (the claims under study concern counts, control flow and exact equalities
produced by identical computations, not rounding).  Fallible Python code
(exceptions) is modelled with `Except`.
-/

/-- A parameter token as produced by the reader's tokenizer
(`_split_params` / `_to_number` in reader.py): an int, a float, or an
opaque string.  A string token is kept only when it failed both the
integer and the float interpretation at tokenization time (or matched the
two-letters-plus-digits reference shape, which also fails `int()` and
`float()`), so `int()` / `float()` applied to a string token raises. -/
inductive Value where
  | intV : Int → Value
  | floatV : ℚ → Value
  | strV : String → Value
deriving DecidableEq, Repr

/-- Error kinds raised by the Python code, following the spec's taxonomy
(§7) for the decoders' `ValueError` messages, plus `valueError` for
Python's own `int()`/`float()` conversion failures, `indexError` for an
out-of-range list access, and tags for the entity-type / reference-shape
checks. -/
inductive PErr where
  | missingParameters
  | invalidCount
  | invalidOrder
  | degenerateInterval
  | nonNumericCoefficient
  | valueError
  | indexError
  | wrongEntityType
  | invalidReference
deriving DecidableEq, Repr

/-- Decidable equality for `Except`, used to evaluate decoder runs on
concrete inputs. -/
instance exceptDecEq {ε α : Type} [DecidableEq ε] [DecidableEq α] : DecidableEq (Except ε α)
  | .ok a, .ok b =>
    if h : a = b then .isTrue (by rw [h]) else .isFalse (fun hh => by cases hh; exact h rfl)
  | .error a, .error b =>
    if h : a = b then .isTrue (by rw [h]) else .isFalse (fun hh => by cases hh; exact h rfl)
  | .ok _, .error _ => .isFalse (fun hh => by cases hh)
  | .error _, .ok _ => .isFalse (fun hh => by cases hh)

/-- Truncation toward zero, as Python's `int(float)` does. -/
def pyTrunc (q : ℚ) : Int := if 0 ≤ q then q.floor else -((-q).floor)

/-- Python `int(x)` on a tokenized value: identity on ints, truncation on
floats, raises on (non-numeric) strings. -/
def pyInt (v : Value) : Except PErr Int :=
  match v with
  | .intV n => .ok n
  | .floatV q => .ok (pyTrunc q)
  | .strV _ => .error .valueError

/-- Python `float(x)` on a tokenized value. -/
def pyFloat (v : Value) : Except PErr ℚ :=
  match v with
  | .intV n => .ok (n : ℚ)
  | .floatV q => .ok q
  | .strV _ => .error .valueError

/-- Python `isinstance(x, (int, float))`. -/
def isNum (v : Value) : Bool :=
  match v with
  | .strV _ => false
  | _ => true

/-- Numeric content of a token (only used where the code has already
checked the token is numeric; 0 on strings is never reached there). -/
def valToRat (v : Value) : ℚ :=
  match v with
  | .intV n => (n : ℚ)
  | .floatV q => q
  | .strV _ => 0

/-- Python's banker's rounding `round(q)` (half to even). -/
def pyRoundHalfEven (q : ℚ) : Int :=
  let f := q.floor
  let r := q - (f : ℚ)
  if r < 1/2 then f
  else if 1/2 < r then f + 1
  else if f % 2 = 0 then f else f + 1

/-- `_as_int` from face_eval.py: identity on ints, `int(round(float(x)))`
on floats, raises on strings. -/
def _as_int (v : Value) : Except PErr Int :=
  match v with
  | .intV n => .ok n
  | .floatV q => .ok (pyRoundHalfEven q)
  | .strV _ => .error .valueError

/-! ## Curve decoder and evaluator (curve_eval.py) -/

/-- One decoded CURVE segment: order `K`, raw coefficient slices (already
checked numeric by the decoder) and the global interval `[t0, t1]`. -/
structure CSeg where
  order : Int
  ax : List Value
  ay : List Value
  az : List Value
  t0 : ℚ
  t1 : ℚ
deriving DecidableEq, Repr

/-- Decoded CURVE: segment count, raw global parameter slice, segments. -/
structure CurveM where
  n : Int
  pars : List Value
  segments : List CSeg
deriving DecidableEq, Repr

def allNum (l : List Value) : Bool := l.all isNum

/-- The per-segment loop of `_decode_curve_params` (curve_eval.py lines
32-56): `k` is the current segment index into `pars`, the second argument
the number of segments still to read, the third the remaining tail of
`seg_data`. -/
def parseCurveSegs (pars : List Value) : Nat → Nat → List Value → Except PErr (List CSeg)
  | _, 0, _ => .ok []
  | k, rem+1, sd =>
    match sd with
    | [] => .error .missingParameters
    | kv :: sd2 =>
      match pyInt kv with
      | .error e => .error e
      | .ok K =>
        if K ≤ 0 then .error .invalidOrder
        else
          let Kn := K.toNat
          if sd2.length < 3 * Kn then .error .missingParameters
          else
            let ax := sd2.take Kn
            let ay := (sd2.drop Kn).take Kn
            let az := (sd2.drop (2*Kn)).take Kn
            if allNum ax && allNum ay && allNum az then
              match pyFloat (pars.getD k (.strV "")), pyFloat (pars.getD (k+1) (.strV "")) with
              | .ok t0, .ok t1 =>
                if t1 = t0 then .error .degenerateInterval
                else
                  match parseCurveSegs pars (k+1) rem (sd2.drop (3*Kn)) with
                  | .error e => .error e
                  | .ok segs => .ok (⟨K, ax, ay, az, t0, t1⟩ :: segs)
              | .error e, _ => .error e
              | _, .error e => .error e
            else .error .nonNumericCoefficient

/-- `_decode_curve_params` from curve_eval.py: segment count `n`, `n+1`
global parameters, then `n` blocks `[K, K ax, K ay, K az]`. -/
def _decode_curve_params (params : List Value) : Except PErr CurveM :=
  match params with
  | [] => .error .missingParameters
  | p0 :: _ =>
    match pyInt p0 with
    | .error e => .error e
    | .ok n =>
      if n ≤ 0 then .error .invalidCount
      else
        let nn := n.toNat
        if params.length < 1 + (nn + 1) then .error .missingParameters
        else
          let pars := (params.drop 1).take (nn + 1)
          match parseCurveSegs pars 0 nn (params.drop (1 + (nn + 1))) with
          | .error e => .error e
          | .ok segs => .ok ⟨n, pars, segs⟩

/-- Accumulator loop of `_eval_monomial`: running sum `s`, running power `p`. -/
def evalMonoAux (u : ℚ) : List Value → ℚ → ℚ → ℚ
  | [], s, _ => s
  | c :: cs, s, p => evalMonoAux u cs (s + valToRat c * p) (p * u)

/-- `_eval_monomial` from curve_eval.py: `Σ c[j] * u^j`. -/
def _eval_monomial (coeffs : List Value) (u : ℚ) : ℚ := evalMonoAux u coeffs 0 1

/-- The two clamping steps of `eval_curve_at_t` (lines 82-83). -/
def clamp2 (tmin tmax t : ℚ) : ℚ :=
  let t1 := if t < tmin then tmin else t
  if t1 > tmax then tmax else t1

/-- Linear scan of `eval_curve_at_t` (lines 87-91): first `i` (counting
from `i0`, with `rem` indices left) such that `t <= float(pars[i+1])`. -/
def findSegAux (pars : List Value) (t : ℚ) : Nat → Nat → Option Nat
  | _, 0 => none
  | i, rem+1 =>
    if t ≤ valToRat (pars.getD (i+1) (.strV "")) then some i
    else findSegAux pars t (i+1) rem

/-- Segment selection of `eval_curve_at_t`: first matching index, falling
back to the last segment. -/
def findSegIdx (pars : List Value) (nsegs : Nat) (t : ℚ) : Nat :=
  (findSegAux pars t 0 nsegs).getD (nsegs - 1)

/-- Body of `eval_curve_at_t` after clamping: select segment, remap to
local `u`, evaluate the three monomials.  (On curves produced by
`_decode_curve_params` the selected segment exists, its interval has
`t1 ≠ t0`, and all `pars` are numeric, so the `getD` defaults, the
`valToRat` of a string and `ℚ`'s total division never matter; on such
junk inputs Python would raise instead.) -/
def evalClamped (c : CurveM) (tc : ℚ) : ℚ × ℚ × ℚ :=
  let k := findSegIdx c.pars c.segments.length tc
  let seg := c.segments.getD k ⟨0, [], [], [], 0, 1⟩
  let u := (tc - seg.t0) / (seg.t1 - seg.t0)
  (_eval_monomial seg.ax u, _eval_monomial seg.ay u, _eval_monomial seg.az u)

/-- `eval_curve_at_t` from curve_eval.py: clamp `t` into
`[float(pars[0]), float(pars[-1])]`, then evaluate. -/
def eval_curve_at_t (c : CurveM) (t : ℚ) : ℚ × ℚ × ℚ :=
  let tmin := valToRat (c.pars.headD (.strV ""))
  let tmax := valToRat (c.pars.getLastD (.strV ""))
  evalClamped c (clamp2 tmin tmax t)

/-- Per-segment sample points of `sample_curve` (curve_eval.py lines
113-122): `m` is `max(2, int(samples_per_segment))`, `idx` the segment's
position in the curve. -/
def segSamples (m : Nat) (ik : Bool) (idx : Nat) (seg : CSeg) : List (ℚ × ℚ × ℚ) :=
  (List.range (m + (if ik || idx == 0 then 1 else 0))).filterMap (fun (j : Nat) =>
    if j == 0 && decide (0 < idx) && !ik then none
    else
      some (_eval_monomial seg.ax ((j : ℚ) / (m : ℚ)),
            _eval_monomial seg.ay ((j : ℚ) / (m : ℚ)),
            _eval_monomial seg.az ((j : ℚ) / (m : ℚ))))

/-- The `enumerate` loop of `sample_curve`. -/
def sampleCurveAux (m : Nat) (ik : Bool) : Nat → List CSeg → List (ℚ × ℚ × ℚ)
  | _, [] => []
  | idx, seg :: rest => segSamples m ik idx seg ++ sampleCurveAux m ik (idx+1) rest

/-- `sample_curve` from curve_eval.py. -/
def sample_curve (c : CurveM) (samplesPerSegment : Int) (includeKnots : Bool) :
    List (ℚ × ℚ × ℚ) :=
  sampleCurveAux (max 2 samplesPerSegment).toNat includeKnots 0 c.segments

/-! ## Surface decoder (surf_eval.py) -/

/-- One decoded SURF patch: grid position, orders, coefficient rows
(`Ku` rows of `Kv` raw tokens per coordinate) and local intervals. -/
structure Patch where
  uIdx : Nat
  vIdx : Nat
  orderU : Int
  orderV : Int
  coeffsX : List (List Value)
  coeffsY : List (List Value)
  coeffsZ : List (List Value)
  u0 : ℚ
  u1 : ℚ
  v0 : ℚ
  v1 : ℚ
deriving DecidableEq, Repr

/-- Decoded SURF. -/
structure SurfM where
  nu : Int
  nv : Int
  uPars : List Value
  vPars : List Value
  patches : List Patch
deriving DecidableEq, Repr

/-- Reshape a flat coefficient slice into `rows` rows of `cols` tokens,
as the nested `for u in range(Ku): for v in range(Kv)` loops do. -/
def chunkRows (rows cols : Nat) (flat : List Value) : List (List Value) :=
  (List.range rows).map (fun r => (flat.drop (r * cols)).take cols)

/-- One iteration of the patch loop of `_decode_surf_params`
(surf_eval.py lines 37-106): reads `Ku, Kv`, the three coefficient
blocks, validates, converts the breakpoints and checks degeneracy.
Returns the patch and the unconsumed tail of `patch_data`.  A
single-token tail raises `IndexError` (the read of `Kv` is unguarded in
the source). -/
def parseOnePatch (uPars vPars : List Value) (ui vi : Nat) (pd : List Value) :
    Except PErr (Patch × List Value) :=
  match pd with
  | [] => .error .missingParameters
  | [ku] =>
    match pyInt ku with
    | .error e => .error e
    | .ok _ => .error .indexError
  | ku :: kv :: pd2 =>
    match pyInt ku with
    | .error e => .error e
    | .ok Ku =>
      match pyInt kv with
      | .error e => .error e
      | .ok Kv =>
        if Ku ≤ 0 ∨ Kv ≤ 0 then .error .invalidOrder
        else
          let tot := Ku.toNat * Kv.toNat
          if pd2.length < 3 * tot then .error .missingParameters
          else
            let cx := pd2.take tot
            let cy := (pd2.drop tot).take tot
            let cz := (pd2.drop (2*tot)).take tot
            if allNum cx && allNum cy && allNum cz then
              match pyFloat (uPars.getD ui (.strV "")), pyFloat (uPars.getD (ui+1) (.strV "")),
                    pyFloat (vPars.getD vi (.strV "")), pyFloat (vPars.getD (vi+1) (.strV "")) with
              | .ok u0, .ok u1, .ok v0, .ok v1 =>
                if u1 = u0 ∨ v1 = v0 then .error .degenerateInterval
                else
                  .ok (⟨ui, vi, Ku, Kv,
                        chunkRows Ku.toNat Kv.toNat cx,
                        chunkRows Ku.toNat Kv.toNat cy,
                        chunkRows Ku.toNat Kv.toNat cz,
                        u0, u1, v0, v1⟩, pd2.drop (3 * tot))
              | .error e, _, _, _ => .error e
              | _, .error e, _, _ => .error e
              | _, _, .error e, _ => .error e
              | _, _, _, .error e => .error e
            else .error .nonNumericCoefficient

/-- The full patch loop over the `(u_idx, v_idx)` grid, consuming
`patch_data` sequentially. -/
def parsePatches (uPars vPars : List Value) :
    List (Nat × Nat) → List Value → Except PErr (List Patch)
  | [], _ => .ok []
  | (ui, vi) :: rest, pd =>
    match parseOnePatch uPars vPars ui vi pd with
    | .error e => .error e
    | .ok (p, pd2) =>
      match parsePatches uPars vPars rest pd2 with
      | .error e => .error e
      | .ok ps => .ok (p :: ps)

/-- The `(u_idx, v_idx)` enumeration order of the two nested `for`
loops of `_decode_surf_params`. -/
def patchIdxs (nun nvn : Nat) : List (Nat × Nat) :=
  (List.range nun).flatMap (fun ui => (List.range nvn).map (fun vi => (ui, vi)))

/-- `_decode_surf_params` from surf_eval.py: patch counts `nu, nv`,
`nu+1` u-parameters, `nv+1` v-parameters, then `nu*nv` patch blocks. -/
def _decode_surf_params (params : List Value) : Except PErr SurfM :=
  match params with
  | [] => .error .missingParameters
  | [_] => .error .missingParameters
  | v0 :: v1 :: _ =>
    match pyInt v0 with
    | .error e => .error e
    | .ok nu =>
      match pyInt v1 with
      | .error e => .error e
      | .ok nv =>
        if nu ≤ 0 ∨ nv ≤ 0 then .error .invalidCount
        else
          let nun := nu.toNat
          let nvn := nv.toNat
          if params.length < 2 + (nun + 1) + (nvn + 1) then .error .missingParameters
          else
            let uPars := (params.drop 2).take (nun + 1)
            let vPars := (params.drop (2 + (nun + 1))).take (nvn + 1)
            let patchData := params.drop (2 + (nun + 1) + (nvn + 1))
            match parsePatches uPars vPars (patchIdxs nun nvn) patchData with
            | .error e => .error e
            | .ok ps => .ok ⟨nu, nv, uPars, vPars, ps⟩

/-- Modelled from the spec (§4.4): what the spec's words call "a token
that looks like a valid positive order" — a numeric token with integral
value at least 1.  (No such scan exists in surf_eval.py; this definition
exists only to compare the spec's described decoder with the code's.) -/
def looksLikeOrder (v : Value) : Bool :=
  match v with
  | .intV n => decide (1 ≤ n)
  | .floatV q => decide (1 ≤ q) && (q.den == 1)
  | .strV _ => false

/-- Modelled from the spec (§4.4): the heuristic scan — drop tokens until
two consecutive tokens both look like valid positive orders; an
unsuccessful scan is a parse error (`none`). -/
def scanToOrders : List Value → Option (List Value)
  | [] => none
  | [_] => none
  | a :: b :: rest =>
    if looksLikeOrder a && looksLikeOrder b then some (a :: b :: rest)
    else scanToOrders (b :: rest)

/-- Modelled from the spec (§4.4): the surface decoder as the spec
describes it, with the heuristic padding scan inserted between the
breakpoint vectors and the first patch's orders.  This definition follows
the spec's words, not the source, and exists only so the spec's claim can
be compared against `_decode_surf_params`. -/
def decode_surf_params_specscan (params : List Value) : Except PErr SurfM :=
  match params with
  | [] => .error .missingParameters
  | [_] => .error .missingParameters
  | v0 :: v1 :: _ =>
    match pyInt v0 with
    | .error e => .error e
    | .ok nu =>
      match pyInt v1 with
      | .error e => .error e
      | .ok nv =>
        if nu ≤ 0 ∨ nv ≤ 0 then .error .invalidCount
        else
          let nun := nu.toNat
          let nvn := nv.toNat
          if params.length < 2 + (nun + 1) + (nvn + 1) then .error .missingParameters
          else
            let uPars := (params.drop 2).take (nun + 1)
            let vPars := (params.drop (2 + (nun + 1))).take (nvn + 1)
            let patchData := params.drop (2 + (nun + 1) + (nvn + 1))
            match scanToOrders patchData with
            | none => .error .missingParameters
            | some pd =>
              match parsePatches uPars vPars (patchIdxs nun nvn) pd with
              | .error e => .error e
              | .ok ps => .ok ⟨nu, nv, uPars, vPars, ps⟩

/-! ## Entities, CONS and FACE decoders (reader.py data shape, face_eval.py) -/

/-- A parsed entity as produced by `read_vdafs`. -/
structure Entity where
  name : String
  command : String
  params : List Value
  raw : String
  linenoStart : Nat
  linenoEnd : Nat
deriving DecidableEq, Repr

/-- `isinstance(v, str) and v.startswith(c1c2)`: the reference-shape test
used on SR/CV/CN references. -/
def isRefWith (c1 c2 : Char) (v : Value) : Bool :=
  match v with
  | .strV s =>
    match s.data with
    | a :: b :: _ => a == c1 && b == c2
    | _ => false
  | _ => false

/-- The string payload of a token already checked to be a string. -/
def strOf (v : Value) : String :=
  match v with
  | .strV s => s
  | _ => ""

/-- One p-curve segment of a CONS. -/
structure PSeg where
  order : Int
  asC : List ℚ
  atC : List ℚ
  t0 : ℚ
  t1 : ℚ
deriving DecidableEq, Repr

/-- The decoded p-curve mapping of a CONS (`pc` in face_eval.py). -/
structure PCurve where
  n : Nat
  pars : List ℚ
  segments : List PSeg
deriving DecidableEq, Repr

/-- Decoded CONS. -/
structure ConsM where
  surf : String
  curve : String
  tStart : Option ℚ
  tEnd : Option ℚ
  pc : Option PCurve
deriving DecidableEq, Repr

/-- Python `l[i]` with its negative-index wrap-around; raises IndexError
when out of range. -/
def pyGetIdx (l : List Value) (i : Int) : Except PErr Value :=
  if i < 0 then
    if 0 ≤ i + l.length then .ok (l.getD (i + l.length).toNat (.strV "")) else .error .indexError
  else if i < l.length then .ok (l.getD i.toNat (.strV "")) else .error .indexError

/-- `float()` of each element of a token list, failing on the first
non-numeric one (the `pars` loop of `decode_cons_entity`). -/
def floatList : List Value → Except PErr (List ℚ)
  | [] => .ok []
  | v :: r =>
    match pyFloat v with
    | .error e => .error e
    | .ok q =>
      match floatList r with
      | .error e => .error e
      | .ok qs => .ok (q :: qs)

/-- The optional `t_start, t_end` consumption of `decode_cons_entity`
(face_eval.py lines 48-50); returns the range and the updated cursor. -/
def consTRange (params : List Value) : (Option ℚ × Option ℚ) × Nat :=
  if 3 < params.length && isNum (params.getD 2 (.strV "")) && isNum (params.getD 3 (.strV "")) then
    ((some (valToRat (params.getD 2 (.strV ""))), some (valToRat (params.getD 3 (.strV "")))), 4)
  else ((none, none), 2)

/-- `[float(params[i + j]) for j in range(cnt)]`: a coefficient block
read of `decode_cons_entity`, element-indexed (so a string raises). -/
def consCoeffBlock (params : List Value) : Int → Nat → Except PErr (List ℚ)
  | _, 0 => .ok []
  | i, cnt+1 =>
    match pyGetIdx params i with
    | .error e => .error e
    | .ok v =>
      match pyFloat v with
      | .error e => .error e
      | .ok q =>
        match consCoeffBlock params (i+1) cnt with
        | .error e => .error e
        | .ok qs => .ok (q :: qs)

/-- The p-curve segment loop of `decode_cons_entity` (face_eval.py lines
68-82): `k` indexes `pars`, the `Nat` is the remaining iteration count of
`range(n)`, `i` the cursor.  A malformed block breaks out of the loop,
keeping the segments parsed so far. -/
def parseConsSegs (params : List Value) (pars : List ℚ) : Nat → Nat → Int → Except PErr (List PSeg)
  | _, 0, _ => .ok []
  | k, rem+1, i =>
    if (params.length : Int) ≤ i then .ok []
    else
      match pyGetIdx params i with
      | .error e => .error e
      | .ok v =>
        if !(isNum v) then .ok []
        else
          match _as_int v with
          | .error e => .error e
          | .ok K =>
            if (params.length : Int) < (i + 1) + K then .ok []
            else
              match consCoeffBlock params (i+1) K.toNat with
              | .error e => .error e
              | .ok asC =>
                if (params.length : Int) < ((i + 1) + K) + K then .ok []
                else
                  match consCoeffBlock params ((i+1) + K) K.toNat with
                  | .error e => .error e
                  | .ok atC =>
                    match parseConsSegs params pars (k+1) rem (((i+1) + K) + K) with
                    | .error e => .error e
                    | .ok segs =>
                      .ok (⟨K, asC, atC, pars.getD k 0, pars.getD (k+1) 0⟩ :: segs)

/-- `decode_cons_entity` from face_eval.py. -/
def decode_cons_entity (e : Entity) : Except PErr ConsM :=
  if e.command ≠ "CONS" then .error .wrongEntityType
  else
    match e.params with
    | [] => .error .missingParameters
    | [_] => .error .missingParameters
    | p0 :: p1 :: _ =>
      if !(isRefWith 'S' 'R' p0) then .error .invalidReference
      else if !(isRefWith 'C' 'V' p1) then .error .invalidReference
      else
        let params := e.params
        let tr := consTRange params
        let i0 := tr.2
        if params.length ≤ i0 || !(isNum (params.getD i0 (.strV ""))) then
          .ok ⟨strOf p0, strOf p1, tr.1.1, tr.1.2, none⟩
        else
          match _as_int (params.getD i0 (.strV "")) with
          | .error _ => .ok ⟨strOf p0, strOf p1, tr.1.1, tr.1.2, none⟩
          | .ok n =>
            let i1 := i0 + 1
            if (params.length : Int) < (i1 : Int) + (n + 1) then
              .ok ⟨strOf p0, strOf p1, tr.1.1, tr.1.2, none⟩
            else
              match floatList ((params.drop i1).take (n+1).toNat) with
              | .error e => .error e
              | .ok pars =>
                match parseConsSegs params pars 0 n.toNat ((i1 : Int) + ((n+1).toNat : Int)) with
                | .error e => .error e
                | .ok segs =>
                  .ok ⟨strOf p0, strOf p1, tr.1.1, tr.1.2, some ⟨segs.length, pars, segs⟩⟩

/-- One loop item of a FACE. -/
structure FItem where
  cons : String
  u : ℚ
  v : ℚ
deriving DecidableEq, Repr

/-- One boundary loop of a FACE. -/
structure FLoop where
  count : Nat
  items : List FItem
deriving DecidableEq, Repr

/-- Decoded FACE. -/
structure FaceM where
  surf : String
  loops : List FLoop
deriving DecidableEq, Repr

/-- The item loop of `decode_face_entity` (face_eval.py lines 146-156):
reads up to `count` triples `(cons_ref, u, v)` starting at cursor `i`.
A triple whose first element is not a CN reference, or a truncated tail,
ends the loop, returning the items read so far and the cursor position. -/
def parseFaceItems (params : List Value) : Nat → Nat → Except PErr (List FItem × Nat)
  | 0, i => .ok ([], i)
  | rem+1, i =>
    if params.length ≤ i + 2 then .ok ([], i)
    else
      let cr := params.getD i (.strV "")
      let u := params.getD (i+1) (.strV "")
      let v := params.getD (i+2) (.strV "")
      if !(isRefWith 'C' 'N' cr) then .ok ([], i)
      else
        match pyFloat u with
        | .error e => .error e
        | .ok uq =>
          match pyFloat v with
          | .error e => .error e
          | .ok vq =>
            match parseFaceItems params rem (i+3) with
            | .error e => .error e
            | .ok (its, j) => .ok (⟨strOf cr, uq, vq⟩ :: its, j)

/-- The outer `while` loop of `decode_face_entity` (face_eval.py lines
136-161), fuelled: the source loop advances its cursor by at least 4 per
continuing iteration, so `params.length` units of fuel are never
exhausted before a `break`. -/
def parseFaceLoops (params : List Value) : Nat → Nat → List FLoop → Except PErr (List FLoop)
  | 0, _, acc => .ok acc
  | fuel+1, i, acc =>
    if params.length ≤ i then .ok acc
    else
      let c := params.getD i (.strV "")
      if !(isNum c) then .ok acc
      else
        match _as_int c with
        | .error _ => .ok acc
        | .ok cnt =>
          match parseFaceItems params cnt.toNat (i+1) with
          | .error e => .error e
          | .ok (items, j) =>
            if items.isEmpty then .ok acc
            else parseFaceLoops params fuel j (acc ++ [⟨items.length, items⟩])

/-- `decode_face_entity` from face_eval.py. -/
def decode_face_entity (e : Entity) : Except PErr FaceM :=
  if e.command ≠ "FACE" then .error .wrongEntityType
  else
    match e.params with
    | [] => .error .missingParameters
    | p0 :: _ =>
      if !(isRefWith 'S' 'R' p0) then .error .invalidReference
      else
        let params := e.params
        let i0 := if 1 < params.length && isNum (params.getD 1 (.strV "")) &&
                     (2 < params.length && isNum (params.getD 2 (.strV ""))) then 2 else 1
        match parseFaceLoops params params.length i0 [] with
        | .error e => .error e
        | .ok loops => .ok ⟨strOf p0, loops⟩

/-! ## Header, model, index and queries (reader.py, index.py, query.py) -/

/-- The Header captured by `read_vdafs`. -/
structure Header where
  name : String
  nLines : Int
  lines : List String
  linenoStart : Nat
  linenoEnd : Int
deriving DecidableEq, Repr

/-- The parsed model returned by `read_vdafs` (the path field is
omitted: it is I/O metadata only). -/
structure RModel where
  header : Option Header
  entities : List Entity
deriving DecidableEq, Repr

/-- The two dictionaries built by `build_index` (index.py), as lookup
functions: `by_name` maps a name to the entity stored last under it, and
`by_type` maps a command to the names appended in file order. -/
structure Index where
  byName : String → Option Entity
  byType : String → List String

/-- `build_index` from index.py: a single left fold over the entities,
each one overwriting `by_name[name]` and appending to `by_type[command]`. -/
def build_index (m : RModel) : Index :=
  { byName := m.entities.foldl
      (fun acc e => fun nm => if nm = e.name then some e else acc nm) (fun _ => none)
  , byType := m.entities.foldl
      (fun acc e => fun cmd => if cmd = e.command then acc cmd ++ [e.name] else acc cmd)
      (fun _ => []) }

/-- `get_entity` from query.py. -/
def get_entity (idx : Index) (name : String) : Option Entity := idx.byName name

/-- `list_names_by_type` from query.py (the query is upper-cased). -/
def list_names_by_type (idx : Index) (entityType : String) : List String :=
  idx.byType ⟨entityType.data.map Char.toUpper⟩

/-! ## Reader (reader.py) -/

/-- ASCII `[A-Z]`. -/
def isUpperAZ (c : Char) : Bool := 65 ≤ c.toNat && c.toNat ≤ 90

/-- ASCII `[0-9]`. -/
def isDigitC (c : Char) : Bool := 48 ≤ c.toNat && c.toNat ≤ 57

/-- ASCII `[A-Z0-9]`. -/
def isAlnumUp (c : Char) : Bool := isUpperAZ c || isDigitC c

/-- The whitespace class of Python's `\s` / `str.strip()` (ASCII part;
the input format is latin-1 line data without exotic whitespace). -/
def isPySpace (c : Char) : Bool :=
  c == ' ' || c == '\t' || c == '\n' || c == '\r' || c.toNat == 11 || c.toNat == 12

def dropSpaces (cs : List Char) : List Char := cs.dropWhile isPySpace

/-- Python `str.strip()`. -/
def stripChars (cs : List Char) : List Char :=
  ((cs.dropWhile isPySpace).reverse.dropWhile isPySpace).reverse

/-- Python `s.split(',')`. -/
def splitComma : List Char → List (List Char)
  | [] => [[]]
  | ',' :: rest => [] :: splitComma rest
  | c :: rest =>
    match splitComma rest with
    | g :: gs => (c :: g) :: gs
    | [] => [[c]]

def digitsVal (ds : List Char) : Nat := ds.foldl (fun a c => a * 10 + (c.toNat - 48)) 0

/-- `^[+\-]?\d+$` (full match), as `_to_number`'s integer test + `int()`. -/
def intParse (cs : List Char) : Option Int :=
  let p : Int × List Char :=
    match cs with
    | '+' :: r => (1, r)
    | '-' :: r => (-1, r)
    | r => (1, r)
  let ds := p.2.takeWhile isDigitC
  let rest := p.2.dropWhile isDigitC
  if ds.isEmpty || !rest.isEmpty then none else some (p.1 * digitsVal ds)

def pow10 (e : Int) : ℚ := if 0 ≤ e then ((10:ℚ) ^ e.toNat) else 1 / ((10:ℚ) ^ (-e).toNat)

/-- Exponent tail of a float literal: `[+\-]?\d+`, consuming everything. -/
def parseExp (cs : List Char) : Option Int :=
  let p : Int × List Char :=
    match cs with
    | '+' :: r => (1, r)
    | '-' :: r => (-1, r)
    | r => (1, r)
  let ds := p.2.takeWhile isDigitC
  let rest := p.2.dropWhile isDigitC
  if ds.isEmpty || !rest.isEmpty then none else some (p.1 * digitsVal ds)

/-- Unsigned core of Python's `float()` literal grammar:
`d+[.d*][exp] | .d+[exp]`.  (The non-finite literals `inf`/`nan` and
PEP-515 digit underscores have no `ℚ` counterpart and do not occur in
VDA-FS parameter data; they are outside this model.) -/
def floatCore (cs : List Char) : Option ℚ :=
  match cs with
  | '.' :: r =>
    let fs := r.takeWhile isDigitC
    let rest := r.dropWhile isDigitC
    if fs.isEmpty then none
    else
      let base : ℚ := (digitsVal fs : ℚ) / (10:ℚ) ^ fs.length
      match rest with
      | [] => some base
      | 'e' :: r2 => (parseExp r2).map (fun e => base * pow10 e)
      | 'E' :: r2 => (parseExp r2).map (fun e => base * pow10 e)
      | _ => none
  | _ =>
    let ds := cs.takeWhile isDigitC
    let rest := cs.dropWhile isDigitC
    if ds.isEmpty then none
    else
      let ip : ℚ := (digitsVal ds : ℚ)
      match rest with
      | [] => some ip
      | '.' :: r2 =>
        let fs := r2.takeWhile isDigitC
        let rest2 := r2.dropWhile isDigitC
        let base : ℚ := ip + (digitsVal fs : ℚ) / (10:ℚ) ^ fs.length
        match rest2 with
        | [] => some base
        | 'e' :: r3 => (parseExp r3).map (fun e => base * pow10 e)
        | 'E' :: r3 => (parseExp r3).map (fun e => base * pow10 e)
        | _ => none
      | 'e' :: r2 => (parseExp r2).map (fun e => ip * pow10 e)
      | 'E' :: r2 => (parseExp r2).map (fun e => ip * pow10 e)
      | _ => none

/-- Python `float(s)` on a stripped token. -/
def floatParse (cs : List Char) : Option ℚ :=
  match cs with
  | '+' :: r => floatCore r
  | '-' :: r => (floatCore r).map (fun q => -q)
  | r => floatCore r

/-- `^[A-Z]{2}\d+$`: the reference shape kept as a string token. -/
def isRefShape : List Char → Bool
  | a :: b :: rest => isUpperAZ a && isUpperAZ b && !rest.isEmpty && rest.all isDigitC
  | _ => false

/-- `_to_number` from reader.py. -/
def _to_number (tok : List Char) : Value :=
  let t := stripChars tok
  if t.isEmpty then .strV ⟨t⟩
  else
    match intParse t with
    | some n => .intV n
    | none =>
      match floatParse t with
      | some q => .floatV q
      | none => .strV ⟨t⟩

/-- `_split_params` from reader.py: split the tail on commas, strip,
drop empties, keep reference-shaped fields as strings, else numberize. -/
def _split_params (tail : Option String) : List Value :=
  match tail with
  | none => []
  | some s =>
    if (stripChars s.data).isEmpty then []
    else
      ((splitComma s.data).map stripChars).filterMap (fun p =>
        if p.isEmpty then none
        else if isRefShape p then some (.strV ⟨p⟩)
        else some (_to_number p))

/-- The `_stmt_start` regex `^\s*[A-Z][A-Z0-9]{0,7}\s*=\s*[A-Z]+` as a
prefix test.  The character classes `[A-Z0-9]`, `\s` and `=` are
disjoint, so the regex engine's greedy-with-backtracking name match
succeeds exactly when the whole alphanumeric run has length at most 8. -/
def stmtStartB (cs : List Char) : Bool :=
  match dropSpaces cs with
  | [] => false
  | c :: rest =>
    if !(isUpperAZ c) then false
    else
      let run := rest.takeWhile isAlnumUp
      let rest2 := rest.dropWhile isAlnumUp
      if 7 < run.length then false
      else
        match dropSpaces rest2 with
        | '=' :: cs3 =>
          match dropSpaces cs3 with
          | d :: _ => isUpperAZ d
          | [] => false
        | _ => false

/-- The `_stmt_parse` regex
`^\s*([A-Z][A-Z0-9]{0,7})\s*=\s*([A-Z]+)\s*(?:/\s*(.*))?\s*$` as a full
parse: returns `(name, command-word, optional parameter tail)`.  The
greedy `(.*)` runs to the end of the line, so the tail keeps its
trailing spaces. -/
def stmt_parse (s : String) : Option (String × String × Option String) :=
  match dropSpaces s.data with
  | [] => none
  | c :: rest =>
    if !(isUpperAZ c) then none
    else
      let run := rest.takeWhile isAlnumUp
      let rest2 := rest.dropWhile isAlnumUp
      if 7 < run.length then none
      else
        match dropSpaces rest2 with
        | '=' :: cs3 =>
          let cs4 := dropSpaces cs3
          let word := cs4.takeWhile isUpperAZ
          let cs5 := cs4.dropWhile isUpperAZ
          if word.isEmpty then none
          else
            match dropSpaces cs5 with
            | [] => some (⟨c :: run⟩, ⟨word⟩, none)
            | '/' :: cs7 => some (⟨c :: run⟩, ⟨word⟩, some ⟨dropSpaces cs7⟩)
            | _ => none
        | _ => none

/-- `_is_comment` from reader.py: after an lstrip, the line starts `$$`. -/
def isCommentL (cs : List Char) : Bool :=
  match cs.dropWhile isPySpace with
  | '$' :: '$' :: _ => true
  | _ => false

/-- Blank after `strip()`. -/
def isBlankL (cs : List Char) : Bool := (stripChars cs).isEmpty

/-- `data.strip().upper() == 'END'`. -/
def isEndL (cs : List Char) : Bool := (stripChars cs).map Char.toUpper == ['E', 'N', 'D']

/-- `_coalesce_statements` from reader.py, as a recursion over the
records `(lineno, raw)`: `st` is the open buffer (start line and merged
text of the data columns), `lastNo` the line number of the last record
(used by the final flush).  Yields `(start, end, merged)` triples. -/
def coalesceAux (lastNo : Nat) : Option (Nat × List Char) → List (Nat × String) → List (Nat × Nat × String)
  | st, [] =>
    match st with
    | some (s, t) => [(s, lastNo, ⟨t⟩)]
    | none => []
  | st, (ln, raw) :: rest =>
    let data := raw.data.take 72
    if isEndL data then
      match st with
      | some (s, t) => [(s, ln - 1, ⟨t⟩)]
      | none => []
    else if isBlankL data || isCommentL data then
      coalesceAux lastNo st rest
    else if stmtStartB data then
      match st with
      | some (s, t) => (s, ln - 1, (⟨t⟩ : String)) :: coalesceAux lastNo (some (ln, data)) rest
      | none => coalesceAux lastNo (some (ln, data)) rest
    else
      match st with
      | some (s, t) => coalesceAux lastNo (some (s, t ++ data)) rest
      | none => coalesceAux lastNo none rest

def _coalesce_statements (recs : List (Nat × String)) : List (Nat × Nat × String) :=
  coalesceAux ((recs.getLast?).elim 0 (fun r => r.1)) none recs

/-- The leading-integer extraction of the HEADER count
(`re.match(r"\s*([+\-]?\d+)", rest)` + `int()`). -/
def headerCount (s : String) : Option Int :=
  let cs := dropSpaces s.data
  let p : Int × List Char :=
    match cs with
    | '+' :: r => (1, r)
    | '-' :: r => (-1, r)
    | r => (1, r)
  let ds := p.2.takeWhile isDigitC
  if ds.isEmpty then none else some (p.1 * digitsVal ds)

/-- The `ln_to_text` dictionary of `read_vdafs`, with its `.get(ln, '')`
default (line numbers from `enumerate` are unique, so first match is the
dictionary entry). -/
def lnText (recs : List (Nat × String)) (ln : Nat) : String :=
  match recs.find? (fun r => r.1 == ln) with
  | some r => r.2
  | none => ""

/-- The statement loop of `read_vdafs` (reader.py lines 104-147):
HEADER statements capture the next `n` raw records verbatim into the
header; `END` stops; other parsed statements become entities; unparsable
statements are skipped. -/
def processStmts (recs : List (Nat × String)) :
    List (Nat × Nat × String) → Option Header → List Entity → Option Header × List Entity
  | [], h, acc => (h, acc)
  | (ln0, ln1, text) :: rest, h, acc =>
    match stmt_parse text with
    | none => processStmts recs rest h acc
    | some (name, word, restP) =>
      if word = "HEADER" then
        let n : Int :=
          match restP with
          | none => 0
          | some r => (headerCount r).getD 0
        let lines := (List.range n.toNat).map (fun k => lnText recs (ln0 + 1 + k))
        processStmts recs rest (some ⟨name, n, lines, ln0, (ln0 : Int) + n⟩) acc
      else if word = "END" then (h, acc)
      else
        processStmts recs rest h
          (acc ++ [⟨name, word, _split_params restP, text, ln0, ln1⟩])

/-- `read_vdafs` from reader.py, over the record list that
`_iter_records` yields from the file: pairs of 1-based line number and
newline-stripped raw line. -/
def read_vdafs (recs : List (Nat × String)) : RModel :=
  let stmts := _coalesce_statements recs
  let r := processStmts recs stmts none []
  ⟨r.1, r.2⟩

/-! ## Concrete inputs used by witnesses and counterexamples -/

/-- A decoded one-segment curve (order 1). -/
def wCurve1 : CurveM :=
  ⟨1, [Value.intV 0, Value.intV 1], [⟨1, [Value.intV 1], [Value.intV 2], [Value.intV 3], 0, 1⟩]⟩

/-- A decoded two-segment curve (orders 1). -/
def wCurve2 : CurveM :=
  ⟨2, [Value.intV 0, Value.intV 1, Value.intV 2],
   [⟨1, [Value.intV 1], [Value.intV 2], [Value.intV 3], 0, 1⟩,
    ⟨1, [Value.intV 4], [Value.intV 5], [Value.intV 6], 1, 2⟩]⟩


/-- A well-formed one-segment CURVE parameter list. -/
def wCurveParams : List Value :=
  [Value.intV 1, Value.intV 0, Value.intV 1,
   Value.intV 1, Value.intV 5, Value.intV 6, Value.intV 7]

/-- The decode of `wCurveParams`. -/
def wCurveDec : CurveM :=
  ⟨1, [Value.intV 0, Value.intV 1],
   [⟨1, [Value.intV 5], [Value.intV 6], [Value.intV 7], 0, 1⟩]⟩

/-- A well-formed 1x1-patch SURF parameter list. -/
def wSurfParams : List Value :=
  [Value.intV 1, Value.intV 1, Value.intV 0, Value.intV 1, Value.intV 0, Value.intV 1,
   Value.intV 1, Value.intV 1, Value.intV 5, Value.intV 6, Value.intV 7]

/-- The decode of `wSurfParams`. -/
def wSurfDec : SurfM :=
  ⟨1, 1, [Value.intV 0, Value.intV 1], [Value.intV 0, Value.intV 1],
   [⟨0, 0, 1, 1, [[Value.intV 5]], [[Value.intV 6]], [[Value.intV 7]], 0, 1, 0, 1⟩]⟩

/-- `wSurfParams` with one scalar padding token (`0`) inserted between
the breakpoint vectors and the first patch's orders. -/
def wC2Params : List Value :=
  [Value.intV 1, Value.intV 1, Value.intV 0, Value.intV 1, Value.intV 0, Value.intV 1,
   Value.intV 0, Value.intV 1, Value.intV 1, Value.intV 5, Value.intV 6, Value.intV 7]

/-- A SURF parameter list with a degenerate s-breakpoint pair and no
patch data at all. -/
def wSurfDegen : List Value :=
  [Value.intV 1, Value.intV 1, Value.intV 0, Value.intV 0, Value.intV 0, Value.intV 1]

/-- A CONS entity with valid SR/CV references whose p-curve block is
malformed: the parameter vector contains the non-numeric token `CV9`. -/
def wConsBad : Entity :=
  ⟨"CN1", "CONS",
   [Value.strV "SR1", Value.strV "CV1", Value.intV 0, Value.intV 1,
    Value.intV 1, Value.intV 0, Value.strV "CV9"], "", 1, 1⟩

/-- A CONS entity with only the SR/CV references (p-curve absent). -/
def wConsMin : Entity :=
  ⟨"CN1", "CONS", [Value.strV "SR1", Value.strV "CV1"], "", 1, 1⟩

/-- A FACE parameter list whose first loop triple starts with a
non-CN token. -/
def wFaceParams : List Value :=
  [Value.strV "SR1", Value.intV 1, Value.strV "XX", Value.intV 0, Value.intV 0]

/-- Two entities sharing the name `CV1`. -/
def wEnt1 : Entity := ⟨"CV1", "CURVE", [Value.intV 1], "", 1, 1⟩

def wEnt2 : Entity := ⟨"CV1", "POINT", [Value.intV 2], "", 2, 2⟩

/-- A model with a name collision. -/
def wDupModel : RModel := ⟨none, [wEnt1, wEnt2]⟩

/-- An input file for the reader: a HEADER declaring 3 lines, where the
first captured line lexically resembles a CURVE statement. -/
def wReaderRecs : List (Nat × String) :=
  [(1, "HDR = HEADER / 3"),
   (2, "XY1 = CURVE / 1,0.,1.,1,5."),
   (3, "SOME TEXT LINE"),
   (4, "ANOTHER LINE"),
   (5, "CV1 = CURVE / 1,0.,1."),
   (6, "END")]

/-! ## Theorems -/

/-- Length of a `filterMap` that never drops. -/
lemma lenSome (g : Nat → ℚ × ℚ × ℚ) :
    ∀ l : List Nat, (l.filterMap (fun j => some (g j))).length = l.length := by
  intro l
  induction l with
  | nil => rfl
  | cons a t ih => simp [List.filterMap_cons, ih]

/-- Length of a `filterMap` over `range` that drops exactly index 0. -/
lemma lenSkipZero (g : Nat → ℚ × ℚ × ℚ) :
    ∀ m : Nat, ((List.range m).filterMap
      (fun j => if j = 0 then none else some (g j))).length = m - 1 := by
  intro m
  cases m with
  | zero => rfl
  | succ m' =>
    rw [List.range_succ_eq_map]
    have hfun : ((fun j => if j = 0 then none else some (g j)) ∘ Nat.succ)
        = (fun j => some (g (j+1))) := by
      funext j
      simp
    simp [List.filterMap_cons, List.filterMap_map, hfun, lenSome]

/-- With knots kept each segment contributes `m+1` sample points. -/
lemma segSamples_len_knots (m idx : Nat) (seg : CSeg) :
    (segSamples m true idx seg).length = m + 1 := by
  unfold segSamples
  have hfun : (fun (j : Nat) =>
      if j == 0 && decide (0 < idx) && !true then none
      else some (_eval_monomial seg.ax ((j : ℚ) / (m : ℚ)),
                 _eval_monomial seg.ay ((j : ℚ) / (m : ℚ)),
                 _eval_monomial seg.az ((j : ℚ) / (m : ℚ))))
      = (fun (j : Nat) => some (_eval_monomial seg.ax ((j : ℚ) / (m : ℚ)),
                 _eval_monomial seg.ay ((j : ℚ) / (m : ℚ)),
                 _eval_monomial seg.az ((j : ℚ) / (m : ℚ)))) := by
    funext j
    simp
  rw [hfun, lenSome, List.length_range]
  simp

/-- With knots suppressed the first segment still contributes `m+1`. -/
lemma segSamples_len_first (m : Nat) (seg : CSeg) :
    (segSamples m false 0 seg).length = m + 1 := by
  unfold segSamples
  have hfun : (fun (j : Nat) =>
      if j == 0 && decide (0 < 0) && !false then none
      else some (_eval_monomial seg.ax ((j : ℚ) / (m : ℚ)),
                 _eval_monomial seg.ay ((j : ℚ) / (m : ℚ)),
                 _eval_monomial seg.az ((j : ℚ) / (m : ℚ))))
      = (fun (j : Nat) => some (_eval_monomial seg.ax ((j : ℚ) / (m : ℚ)),
                 _eval_monomial seg.ay ((j : ℚ) / (m : ℚ)),
                 _eval_monomial seg.az ((j : ℚ) / (m : ℚ)))) := by
    funext j
    simp
  rw [hfun, lenSome, List.length_range]
  simp

/-- With knots suppressed a later segment contributes `m-1` points: the
range loses a slot and index 0 is skipped. -/
lemma segSamples_len_later (m k : Nat) (seg : CSeg) :
    (segSamples m false (k+1) seg).length = m - 1 := by
  unfold segSamples
  have hfun : (fun (j : Nat) =>
      if j == 0 && decide (0 < (k+1)) && !false then none
      else some (_eval_monomial seg.ax ((j : ℚ) / (m : ℚ)),
                 _eval_monomial seg.ay ((j : ℚ) / (m : ℚ)),
                 _eval_monomial seg.az ((j : ℚ) / (m : ℚ))))
      = (fun (j : Nat) => if j = 0 then none
          else some (_eval_monomial seg.ax ((j : ℚ) / (m : ℚ)),
                 _eval_monomial seg.ay ((j : ℚ) / (m : ℚ)),
                 _eval_monomial seg.az ((j : ℚ) / (m : ℚ)))) := by
    funext j
    simp [Nat.zero_lt_succ]
  rw [hfun]
  have h0 : (false || ((k+1 : Nat) == 0)) = false := by simp
  rw [h0]
  exact lenSkipZero _ m

/-- Total length of the sampling loop with knots kept. -/
lemma sampleCurveAux_len_knots (m : Nat) :
    ∀ (segs : List CSeg) (idx : Nat),
      (sampleCurveAux m true idx segs).length = segs.length * (m + 1) := by
  intro segs
  induction segs with
  | nil => intro idx; simp [sampleCurveAux]
  | cons s t ih =>
    intro idx
    simp [sampleCurveAux, segSamples_len_knots, ih]
    ring

/-- Total length of the sampling loop with knots suppressed, for
segments after the first. -/
lemma sampleCurveAux_len_later (m : Nat) :
    ∀ (segs : List CSeg) (k : Nat),
      (sampleCurveAux m false (k+1) segs).length = segs.length * (m - 1) := by
  intro segs
  induction segs with
  | nil => intro k; simp [sampleCurveAux]
  | cons s t ih =>
    intro k
    simp [sampleCurveAux, segSamples_len_later, ih]
    ring

/-- C3 (counterexample): the claimed counts `n*m` (knots kept) and
`n*m - (n-1)` (knots suppressed) are both wrong on concrete decoded
curves: a one-segment curve sampled at density 2 yields 3 points, not
`1*2`, and a two-segment curve with suppression yields 4 points, not
`2*2 - 1`. -/
theorem c3_counterexample :
    (sample_curve wCurve1 2 true).length = 3 ∧ (3:Nat) ≠ 1 * 2 ∧
    (sample_curve wCurve2 2 false).length = 4 ∧ (4:Nat) ≠ 2 * 2 - (2 - 1) :=
  ⟨by decide, by decide, by decide, by decide⟩

/-- C3 (amended): for a decoded curve with `n ≥ 1` segments and sampling
density `s`, with `m = max(2, s)`, `sample_curve` returns `n*(m+1)`
points when interior-knot duplicates are kept, and
`(m+1) + (n-1)*(m-1)` points (the first segment keeps all `m+1`, later
segments lose both their `u=0` and `u=1` samples) when suppressed. -/
theorem c3_sample_count (c : CurveM) (s : Int) (ik : Bool)
    (h : 1 ≤ c.segments.length) :
    (sample_curve c s ik).length =
      if ik then c.segments.length * ((max 2 s).toNat + 1)
      else ((max 2 s).toNat + 1) + (c.segments.length - 1) * ((max 2 s).toNat - 1) := by
  obtain ⟨s0, rest, hsegs⟩ : ∃ s0 rest, c.segments = s0 :: rest := by
    cases hs : c.segments with
    | nil => rw [hs] at h; simp at h
    | cons a t => exact ⟨a, t, rfl⟩
  unfold sample_curve
  rw [hsegs]
  cases ik with
  | true =>
    simp only [sampleCurveAux, List.length_append, segSamples_len_knots,
      sampleCurveAux_len_knots, List.length_cons, if_true]
    ring
  | false =>
    simp only [sampleCurveAux, List.length_append, segSamples_len_first,
      sampleCurveAux_len_later, List.length_cons]
    simp

/-- C3 witness: the amended count theorem evaluated on the concrete
two-segment curve at density 2 with suppression. -/
theorem c3_sample_count_witness :
    1 ≤ wCurve2.segments.length ∧
    (sample_curve wCurve2 2 false).length =
      (if false then wCurve2.segments.length * ((max 2 (2:Int)).toNat + 1)
       else ((max 2 (2:Int)).toNat + 1) + (wCurve2.segments.length - 1) * ((max 2 (2:Int)).toNat - 1)) :=
  ⟨by decide, c3_sample_count wCurve2 2 false (by decide)⟩

/-- C10: for any integer sampling density below 2, `sample_curve`
returns exactly the same point list as with density 2 — the density is
silently clamped to a minimum of 2 per segment. -/
theorem c10_min_density (c : CurveM) (s : Int) (ik : Bool) (h : s < 2) :
    sample_curve c s ik = sample_curve c 2 ik := by
  unfold sample_curve
  rw [max_eq_left h.le, max_self]

/-- C10 witness: density 0 equals density 2 on a concrete curve. -/
theorem c10_min_density_witness :
    (0:Int) < 2 ∧ sample_curve wCurve1 0 true = sample_curve wCurve1 2 true :=
  ⟨by decide, c10_min_density wCurve1 0 true (by decide)⟩

/-- Clamping `a - ε` (for `ε > 0`) into `[a, b]` gives the same value as
clamping `a` itself. -/
lemma clamp2_lower (a b ε : ℚ) (hε : 0 < ε) : clamp2 a b (a - ε) = clamp2 a b a := by
  simp only [clamp2]
  rw [if_pos (sub_lt_self a hε), if_neg (lt_irrefl a)]

/-- C8: for any curve whose parameter vector starts with `p` and any
`ε > 0`, evaluating at the first breakpoint and at `ε` below it gives
exactly the same point: the lower clamp is idempotent at the boundary. -/
theorem c8_clamp_idempotent (c : CurveM) (p : Value) (ps : List Value) (ε : ℚ)
    (hp : c.pars = p :: ps) (hε : 0 < ε) :
    eval_curve_at_t c (valToRat p) = eval_curve_at_t c (valToRat p - ε) := by
  simp only [eval_curve_at_t]
  rw [hp]
  simp only [List.headD_cons]
  rw [clamp2_lower _ _ _ hε]

/-- C8 witness: the boundary idempotence evaluated on the concrete
two-segment curve with `ε = 1`. -/
theorem c8_clamp_idempotent_witness :
    wCurve2.pars = Value.intV 0 :: [Value.intV 1, Value.intV 2] ∧ (0:ℚ) < 1 ∧
    eval_curve_at_t wCurve2 (valToRat (Value.intV 0)) =
      eval_curve_at_t wCurve2 (valToRat (Value.intV 0) - 1) :=
  ⟨rfl, by decide,
   c8_clamp_idempotent wCurve2 (Value.intV 0) [Value.intV 1, Value.intV 2] 1 rfl (by decide)⟩

/-- A truncated segment block (no tokens left for the declared segment)
raises the missing-block error. -/
lemma curveSegs_trunc_missing (pars : List Value) (k rem : Nat) :
    parseCurveSegs pars k (rem+1) [] = .error .missingParameters := by
  simp [parseCurveSegs]

/-- A segment block with fewer than `3K` coefficient tokens raises the
incomplete-coefficients error. -/
lemma curveSegs_coeffs_missing (pars : List Value) (k rem : Nat) (kv : Value)
    (sd2 : List Value) (K : Int) (hk : pyInt kv = .ok K) (hpos : 0 < K)
    (hlen : sd2.length < 3 * K.toNat) :
    parseCurveSegs pars k (rem+1) (kv :: sd2) = .error .missingParameters := by
  simp only [parseCurveSegs]
  rw [hk]
  simp [not_le.mpr hpos, hlen]

/-- A non-positive segment order raises the invalid-order error. -/
lemma curveSegs_invalid_order (pars : List Value) (k rem : Nat) (kv : Value)
    (sd2 : List Value) (K : Int) (hk : pyInt kv = .ok K) (hK : K ≤ 0) :
    parseCurveSegs pars k (rem+1) (kv :: sd2) = .error .invalidOrder := by
  simp only [parseCurveSegs]
  rw [hk]
  simp [hK]

/-- A non-numeric coefficient token raises the non-numeric error (once
the block is complete). -/
lemma curveSegs_nonnumeric (pars : List Value) (k rem : Nat) (kv : Value)
    (sd2 : List Value) (K : Int) (hk : pyInt kv = .ok K) (hpos : 0 < K)
    (hlen : ¬ sd2.length < 3 * K.toNat)
    (hnum : (allNum (sd2.take K.toNat) && allNum ((sd2.drop K.toNat).take K.toNat) &&
             allNum ((sd2.drop (2*K.toNat)).take K.toNat)) = false) :
    parseCurveSegs pars k (rem+1) (kv :: sd2) = .error .nonNumericCoefficient := by
  simp only [parseCurveSegs]
  rw [hk]
  simp [not_le.mpr hpos, hlen, hnum]

/-- An equal breakpoint pair raises the degenerate-interval error (once
the block itself is well-formed). -/
lemma curveSegs_degenerate (pars : List Value) (k rem : Nat) (kv : Value)
    (sd2 : List Value) (K : Int) (t0 t1 : ℚ) (hk : pyInt kv = .ok K) (hpos : 0 < K)
    (hlen : ¬ sd2.length < 3 * K.toNat)
    (hnum : (allNum (sd2.take K.toNat) && allNum ((sd2.drop K.toNat).take K.toNat) &&
             allNum ((sd2.drop (2*K.toNat)).take K.toNat)) = true)
    (hf0 : pyFloat (pars.getD k (.strV "")) = .ok t0)
    (hf1 : pyFloat (pars.getD (k+1) (.strV "")) = .ok t1)
    (heq : t1 = t0) :
    parseCurveSegs pars k (rem+1) (kv :: sd2) = .error .degenerateInterval := by
  simp only [parseCurveSegs]
  rw [hk]
  simp only [not_le.mpr hpos, if_false, hlen, hnum]
  rw [hf0, hf1]
  simp [heq]

/-- A successful run of the segment loop returns exactly the requested
number of segments, each with a positive order and coefficient slices of
length exactly `K` per coordinate. -/
lemma parseCurveSegs_ok_shape :
    ∀ (rem : Nat) (pars : List Value) (k : Nat) (sd : List Value) (segs : List CSeg),
      parseCurveSegs pars k rem sd = .ok segs →
      segs.length = rem ∧ ∀ s ∈ segs, 0 < s.order ∧
        s.ax.length = s.order.toNat ∧ s.ay.length = s.order.toNat ∧
        s.az.length = s.order.toNat := by
  intro rem
  induction rem with
  | zero =>
    intro pars k sd segs h
    simp only [parseCurveSegs] at h
    cases h
    simp
  | succ rem ih =>
    intro pars k sd segs h
    cases sd with
    | nil => simp [parseCurveSegs] at h
    | cons kv sd2 =>
      simp only [parseCurveSegs] at h
      cases hk : pyInt kv with
      | error e => rw [hk] at h; simp at h
      | ok K =>
        rw [hk] at h
        simp only at h
        by_cases hK : K ≤ 0
        · rw [if_pos hK] at h; simp at h
        rw [if_neg hK] at h
        by_cases hlen : sd2.length < 3 * K.toNat
        · rw [if_pos hlen] at h; simp at h
        rw [if_neg hlen] at h
        by_cases hnum : (allNum (sd2.take K.toNat) && allNum ((sd2.drop K.toNat).take K.toNat) &&
             allNum ((sd2.drop (2*K.toNat)).take K.toNat)) = true
        · rw [if_pos hnum] at h
          cases hf0 : pyFloat (pars.getD k (.strV "")) with
          | error e => rw [hf0] at h; simp at h
          | ok t0 =>
            rw [hf0] at h
            cases hf1 : pyFloat (pars.getD (k+1) (.strV "")) with
            | error e => rw [hf1] at h; simp at h
            | ok t1 =>
              rw [hf1] at h
              simp only at h
              by_cases hdeg : t1 = t0
              · rw [if_pos hdeg] at h; simp at h
              rw [if_neg hdeg] at h
              cases hrec : parseCurveSegs pars (k+1) rem (sd2.drop (3*K.toNat)) with
              | error e => rw [hrec] at h; simp at h
              | ok segs2 =>
                rw [hrec] at h
                simp only [Except.ok.injEq] at h
                subst h
                obtain ⟨hl, hmem⟩ := ih pars (k+1) (sd2.drop (3*K.toNat)) segs2 hrec
                constructor
                · simp [hl]
                · intro s hs
                  rcases List.mem_cons.mp hs with hhead | htail
                  · subst hhead
                    refine ⟨show (0:Int) < K by omega, ?_, ?_, ?_⟩
                    · show (sd2.take K.toNat).length = K.toNat
                      simp only [List.length_take]
                      omega
                    · show ((sd2.drop K.toNat).take K.toNat).length = K.toNat
                      simp only [List.length_take, List.length_drop]
                      omega
                    · show ((sd2.drop (2*K.toNat)).take K.toNat).length = K.toNat
                      simp only [List.length_take, List.length_drop]
                      omega
                  · exact hmem s htail
        · rw [if_neg hnum] at h; simp at h

/-- A successful `_decode_curve_params` returns `n` segments with exact
coefficient-array lengths. -/
lemma decode_curve_ok_shape (params : List Value) (c : CurveM)
    (h : _decode_curve_params params = .ok c) :
    c.segments.length = c.n.toNat ∧ ∀ s ∈ c.segments, 0 < s.order ∧
      s.ax.length = s.order.toNat ∧ s.ay.length = s.order.toNat ∧
      s.az.length = s.order.toNat := by
  cases params with
  | nil => simp [_decode_curve_params] at h
  | cons p0 rest =>
    simp only [_decode_curve_params] at h
    cases hn : pyInt p0 with
    | error e => rw [hn] at h; simp at h
    | ok n =>
      rw [hn] at h
      simp only at h
      by_cases hpos : n ≤ 0
      · rw [if_pos hpos] at h; simp at h
      rw [if_neg hpos] at h
      by_cases hlen : (p0 :: rest).length < 1 + (n.toNat + 1)
      · rw [if_pos hlen] at h; simp at h
      rw [if_neg hlen] at h
      cases hseg : parseCurveSegs (((p0 :: rest).drop 1).take (n.toNat + 1)) 0 n.toNat
          ((p0 :: rest).drop (1 + (n.toNat + 1))) with
      | error e => rw [hseg] at h; simp at h
      | ok segs =>
        rw [hseg] at h
        simp only [Except.ok.injEq] at h
        subst h
        obtain ⟨hl, hmem⟩ := parseCurveSegs_ok_shape n.toNat _ 0 _ segs hseg
        exact ⟨hl, hmem⟩

/-- C5: the CURVE decoder's error taxonomy and success shape.  At any
segment of the per-segment loop: a block with no tokens left, or with
fewer than `3K` coefficient tokens, fails with MissingParameters; an
order `K ≤ 0` fails with InvalidOrder; a non-numeric coefficient in a
complete block fails with NonNumericCoefficient; an equal breakpoint
pair of an otherwise well-formed block fails with DegenerateInterval.
On success, `_decode_curve_params` returns exactly `n` segments whose
coefficient arrays each have length exactly `K`. -/
theorem c5_curve_error_taxonomy :
    (∀ (pars : List Value) (k rem : Nat),
        parseCurveSegs pars k (rem+1) [] = .error .missingParameters)
    ∧ (∀ (pars : List Value) (k rem : Nat) (kv : Value) (sd2 : List Value) (K : Int),
        pyInt kv = .ok K → 0 < K → sd2.length < 3 * K.toNat →
        parseCurveSegs pars k (rem+1) (kv :: sd2) = .error .missingParameters)
    ∧ (∀ (pars : List Value) (k rem : Nat) (kv : Value) (sd2 : List Value) (K : Int),
        pyInt kv = .ok K → K ≤ 0 →
        parseCurveSegs pars k (rem+1) (kv :: sd2) = .error .invalidOrder)
    ∧ (∀ (pars : List Value) (k rem : Nat) (kv : Value) (sd2 : List Value) (K : Int),
        pyInt kv = .ok K → 0 < K → ¬ sd2.length < 3 * K.toNat →
        (allNum (sd2.take K.toNat) && allNum ((sd2.drop K.toNat).take K.toNat) &&
         allNum ((sd2.drop (2*K.toNat)).take K.toNat)) = false →
        parseCurveSegs pars k (rem+1) (kv :: sd2) = .error .nonNumericCoefficient)
    ∧ (∀ (pars : List Value) (k rem : Nat) (kv : Value) (sd2 : List Value) (K : Int) (t0 t1 : ℚ),
        pyInt kv = .ok K → 0 < K → ¬ sd2.length < 3 * K.toNat →
        (allNum (sd2.take K.toNat) && allNum ((sd2.drop K.toNat).take K.toNat) &&
         allNum ((sd2.drop (2*K.toNat)).take K.toNat)) = true →
        pyFloat (pars.getD k (.strV "")) = .ok t0 →
        pyFloat (pars.getD (k+1) (.strV "")) = .ok t1 → t1 = t0 →
        parseCurveSegs pars k (rem+1) (kv :: sd2) = .error .degenerateInterval)
    ∧ (∀ (params : List Value) (c : CurveM), _decode_curve_params params = .ok c →
        c.segments.length = c.n.toNat ∧ ∀ s ∈ c.segments, 0 < s.order ∧
          s.ax.length = s.order.toNat ∧ s.ay.length = s.order.toNat ∧
          s.az.length = s.order.toNat) :=
  ⟨curveSegs_trunc_missing, curveSegs_coeffs_missing, curveSegs_invalid_order,
   curveSegs_nonnumeric, curveSegs_degenerate, decode_curve_ok_shape⟩

/-- C5 witness: each error condition and the success shape, evaluated at
concrete inputs. -/
theorem c5_curve_error_taxonomy_witness :
    parseCurveSegs [] 0 1 [] = .error .missingParameters
    ∧ parseCurveSegs [] 0 1 [Value.intV 1] = .error .missingParameters
    ∧ parseCurveSegs [] 0 1 [Value.intV 0] = .error .invalidOrder
    ∧ parseCurveSegs [] 0 1 [Value.intV 1, Value.strV "A", Value.intV 0, Value.intV 0]
        = .error .nonNumericCoefficient
    ∧ parseCurveSegs [Value.intV 0, Value.intV 0] 0 1
        [Value.intV 1, Value.intV 5, Value.intV 5, Value.intV 5]
        = .error .degenerateInterval
    ∧ (wCurveDec.segments.length = wCurveDec.n.toNat ∧ ∀ s ∈ wCurveDec.segments,
        0 < s.order ∧ s.ax.length = s.order.toNat ∧ s.ay.length = s.order.toNat ∧
        s.az.length = s.order.toNat) :=
  ⟨c5_curve_error_taxonomy.1 [] 0 0,
   c5_curve_error_taxonomy.2.1 [] 0 0 (Value.intV 1) [] 1 rfl (by decide) (by decide),
   c5_curve_error_taxonomy.2.2.1 [] 0 0 (Value.intV 0) [] 0 rfl (by decide),
   c5_curve_error_taxonomy.2.2.2.1 [] 0 0 (Value.intV 1)
     [Value.strV "A", Value.intV 0, Value.intV 0] 1 rfl (by decide) (by decide) (by decide),
   c5_curve_error_taxonomy.2.2.2.2.1 [Value.intV 0, Value.intV 0] 0 0 (Value.intV 1)
     [Value.intV 5, Value.intV 5, Value.intV 5] 1 0 0 rfl (by decide) (by decide)
     (by decide) (by decide) (by decide) rfl,
   c5_curve_error_taxonomy.2.2.2.2.2 wCurveParams wCurveDec (by decide)⟩

/-- Non-positive patch counts fail with the invalid-count error as soon
as both counts have been converted. -/
lemma surf_invalid_count (v0 v1 : Value) (rest : List Value) (nu nv : Int)
    (h0 : pyInt v0 = .ok nu) (h1 : pyInt v1 = .ok nv) (hor : nu ≤ 0 ∨ nv ≤ 0) :
    _decode_surf_params (v0 :: v1 :: rest) = .error .invalidCount := by
  simp only [_decode_surf_params]
  rw [h0, h1]
  simp [hor]

/-- At the per-patch check site, an equal breakpoint pair of an
otherwise well-formed patch block fails with the degenerate-interval
error. -/
lemma onePatch_degenerate (uPars vPars : List Value) (ui vi : Nat) (ku kv : Value)
    (pd2 : List Value) (Ku Kv : Int) (u0 u1 v0 v1 : ℚ)
    (hku : pyInt ku = .ok Ku) (hkv : pyInt kv = .ok Kv)
    (hKu : 0 < Ku) (hKv : 0 < Kv)
    (hlen : ¬ pd2.length < 3 * (Ku.toNat * Kv.toNat))
    (hnum : (allNum (pd2.take (Ku.toNat * Kv.toNat)) &&
             allNum ((pd2.drop (Ku.toNat * Kv.toNat)).take (Ku.toNat * Kv.toNat)) &&
             allNum ((pd2.drop (2*(Ku.toNat * Kv.toNat))).take (Ku.toNat * Kv.toNat))) = true)
    (hu0 : pyFloat (uPars.getD ui (.strV "")) = .ok u0)
    (hu1 : pyFloat (uPars.getD (ui+1) (.strV "")) = .ok u1)
    (hv0 : pyFloat (vPars.getD vi (.strV "")) = .ok v0)
    (hv1 : pyFloat (vPars.getD (vi+1) (.strV "")) = .ok v1)
    (hdeg : u1 = u0 ∨ v1 = v0) :
    parseOnePatch uPars vPars ui vi (ku :: kv :: pd2) = .error .degenerateInterval := by
  simp only [parseOnePatch]
  rw [hku, hkv]
  simp only [if_neg (show ¬ (Ku ≤ 0 ∨ Kv ≤ 0) by omega)]
  simp only [if_neg hlen, hnum, if_true]
  rw [hu0, hu1, hv0, hv1]
  simp [hdeg]

/-- A successfully parsed patch certifies that both of its breakpoint
pairs convert to floats and are distinct. -/
lemma onePatch_ok_nondegen (uPars vPars : List Value) (ui vi : Nat)
    (pd : List Value) (p : Patch) (pd2 : List Value)
    (h : parseOnePatch uPars vPars ui vi pd = .ok (p, pd2)) :
    (∃ a b, pyFloat (uPars.getD ui (.strV "")) = .ok a ∧
        pyFloat (uPars.getD (ui+1) (.strV "")) = .ok b ∧ a ≠ b)
    ∧ (∃ a b, pyFloat (vPars.getD vi (.strV "")) = .ok a ∧
        pyFloat (vPars.getD (vi+1) (.strV "")) = .ok b ∧ a ≠ b) := by
  cases pd with
  | nil => simp [parseOnePatch] at h
  | cons ku pd1 =>
    cases pd1 with
    | nil =>
      simp only [parseOnePatch] at h
      cases hku : pyInt ku with
      | error e => rw [hku] at h; simp at h
      | ok K => rw [hku] at h; simp at h
    | cons kv pd2' =>
      simp only [parseOnePatch] at h
      cases hku : pyInt ku with
      | error e => rw [hku] at h; simp at h
      | ok Ku =>
        rw [hku] at h
        cases hkv : pyInt kv with
        | error e => rw [hkv] at h; simp at h
        | ok Kv =>
          rw [hkv] at h
          simp only at h
          by_cases hord : Ku ≤ 0 ∨ Kv ≤ 0
          · rw [if_pos hord] at h; simp at h
          rw [if_neg hord] at h
          by_cases hlen : pd2'.length < 3 * (Ku.toNat * Kv.toNat)
          · rw [if_pos hlen] at h; simp at h
          rw [if_neg hlen] at h
          by_cases hnum : (allNum (pd2'.take (Ku.toNat * Kv.toNat)) &&
              allNum ((pd2'.drop (Ku.toNat * Kv.toNat)).take (Ku.toNat * Kv.toNat)) &&
              allNum ((pd2'.drop (2*(Ku.toNat * Kv.toNat))).take (Ku.toNat * Kv.toNat))) = true
          · rw [if_pos hnum] at h
            cases hu0 : pyFloat (uPars.getD ui (.strV "")) with
            | error e => rw [hu0] at h; simp at h
            | ok u0 =>
              rw [hu0] at h
              cases hu1 : pyFloat (uPars.getD (ui+1) (.strV "")) with
              | error e => rw [hu1] at h; simp at h
              | ok u1 =>
                rw [hu1] at h
                cases hv0 : pyFloat (vPars.getD vi (.strV "")) with
                | error e => rw [hv0] at h; simp at h
                | ok v0 =>
                  rw [hv0] at h
                  cases hv1 : pyFloat (vPars.getD (vi+1) (.strV "")) with
                  | error e => rw [hv1] at h; simp at h
                  | ok v1 =>
                    rw [hv1] at h
                    simp only at h
                    by_cases hdeg : u1 = u0 ∨ v1 = v0
                    · rw [if_pos hdeg] at h; simp at h
                    rw [if_neg hdeg] at h
                    push_neg at hdeg
                    exact ⟨⟨u0, u1, rfl, rfl, fun he => hdeg.1 he.symm⟩,
                           ⟨v0, v1, rfl, rfl, fun he => hdeg.2 he.symm⟩⟩
          · rw [if_neg hnum] at h; simp at h

/-- Every grid index parsed by a successful patch loop has distinct,
float-convertible breakpoint pairs. -/
lemma parsePatches_ok_mem :
    ∀ (idxs : List (Nat × Nat)) (uPars vPars pd : List Value) (ps : List Patch),
      parsePatches uPars vPars idxs pd = .ok ps →
      ∀ ui vi, (ui, vi) ∈ idxs →
        (∃ a b, pyFloat (uPars.getD ui (.strV "")) = .ok a ∧
            pyFloat (uPars.getD (ui+1) (.strV "")) = .ok b ∧ a ≠ b)
        ∧ (∃ a b, pyFloat (vPars.getD vi (.strV "")) = .ok a ∧
            pyFloat (vPars.getD (vi+1) (.strV "")) = .ok b ∧ a ≠ b) := by
  intro idxs
  induction idxs with
  | nil =>
    intro uPars vPars pd ps h ui vi hmem
    simp at hmem
  | cons hd tl ih =>
    intro uPars vPars pd ps h ui vi hmem
    obtain ⟨a, b⟩ := hd
    simp only [parsePatches] at h
    cases hp : parseOnePatch uPars vPars a b pd with
    | error e => rw [hp] at h; simp at h
    | ok pr =>
      rw [hp] at h
      obtain ⟨p, pd2⟩ := pr
      simp only at h
      cases hrec : parsePatches uPars vPars tl pd2 with
      | error e => rw [hrec] at h; simp at h
      | ok ps2 =>
        rw [hrec] at h
        rcases List.mem_cons.mp hmem with hhd | htl
        · cases hhd
          exact onePatch_ok_nondegen uPars vPars ui vi pd p pd2 hp
        · exact ih uPars vPars pd2 ps2 hrec ui vi htl

/-- Grid membership for the patch enumeration. -/
lemma mem_patchIdxs (a b ui vi : Nat) (hu : ui < a) (hv : vi < b) :
    (ui, vi) ∈ patchIdxs a b := by
  simp only [patchIdxs, List.mem_flatMap, List.mem_map, List.mem_range]
  exact ⟨ui, hu, vi, hv, rfl⟩

/-- A successful `_decode_surf_params` run certifies that every adjacent
pair of the stored s-breakpoints and t-breakpoints converts to floats
and is distinct — the decoder never succeeds on a degenerate pair. -/
lemma decode_surf_ok_nondegen (params : List Value) (s : SurfM)
    (h : _decode_surf_params params = .ok s) :
    (∀ i < s.nu.toNat, ∃ a b, pyFloat (s.uPars.getD i (.strV "")) = .ok a ∧
        pyFloat (s.uPars.getD (i+1) (.strV "")) = .ok b ∧ a ≠ b)
    ∧ (∀ j < s.nv.toNat, ∃ a b, pyFloat (s.vPars.getD j (.strV "")) = .ok a ∧
        pyFloat (s.vPars.getD (j+1) (.strV "")) = .ok b ∧ a ≠ b) := by
  cases params with
  | nil => simp [_decode_surf_params] at h
  | cons v0 rest0 =>
    cases rest0 with
    | nil => simp [_decode_surf_params] at h
    | cons v1 rest =>
      simp only [_decode_surf_params] at h
      cases h0 : pyInt v0 with
      | error e => rw [h0] at h; simp at h
      | ok nu =>
        rw [h0] at h
        cases h1 : pyInt v1 with
        | error e => rw [h1] at h; simp at h
        | ok nv =>
          rw [h1] at h
          simp only at h
          by_cases hc : nu ≤ 0 ∨ nv ≤ 0
          · rw [if_pos hc] at h; simp at h
          rw [if_neg hc] at h
          by_cases hlen : (v0 :: v1 :: rest).length < 2 + (nu.toNat + 1) + (nv.toNat + 1)
          · rw [if_pos hlen] at h; simp at h
          rw [if_neg hlen] at h
          cases hpp : parsePatches (((v0 :: v1 :: rest).drop 2).take (nu.toNat + 1))
              (((v0 :: v1 :: rest).drop (2 + (nu.toNat + 1))).take (nv.toNat + 1))
              (patchIdxs nu.toNat nv.toNat)
              ((v0 :: v1 :: rest).drop (2 + (nu.toNat + 1) + (nv.toNat + 1))) with
          | error e => rw [hpp] at h; simp at h
          | ok ps =>
            rw [hpp] at h
            simp only [Except.ok.injEq] at h
            subst h
            push_neg at hc
            constructor
            · intro i hi
              have hmem := mem_patchIdxs nu.toNat nv.toNat i 0 hi (by omega)
              exact (parsePatches_ok_mem _ _ _ _ _ hpp i 0 hmem).1
            · intro j hj
              have hmem := mem_patchIdxs nu.toNat nv.toNat 0 j (by omega) hj
              exact (parsePatches_ok_mem _ _ _ _ _ hpp 0 j hmem).2

/-- C4: the SURF decoder fails with InvalidCount whenever the two
decoded patch counts satisfy `nps ≤ 0` or `npt ≤ 0`; at its per-patch
check site an equal adjacent breakpoint pair (with the patch block
itself well-formed) fails with DegenerateInterval; and a successful
decode certifies that every adjacent s- or t-breakpoint pair is
distinct, so decoding can never succeed when any adjacent pair is
equal. -/
theorem c4_surf_count_and_degenerate :
    (∀ (v0 v1 : Value) (rest : List Value) (nu nv : Int),
        pyInt v0 = .ok nu → pyInt v1 = .ok nv → nu ≤ 0 ∨ nv ≤ 0 →
        _decode_surf_params (v0 :: v1 :: rest) = .error .invalidCount)
    ∧ (∀ (uPars vPars : List Value) (ui vi : Nat) (ku kv : Value) (pd2 : List Value)
         (Ku Kv : Int) (u0 u1 v0 v1 : ℚ),
        pyInt ku = .ok Ku → pyInt kv = .ok Kv → 0 < Ku → 0 < Kv →
        ¬ pd2.length < 3 * (Ku.toNat * Kv.toNat) →
        (allNum (pd2.take (Ku.toNat * Kv.toNat)) &&
         allNum ((pd2.drop (Ku.toNat * Kv.toNat)).take (Ku.toNat * Kv.toNat)) &&
         allNum ((pd2.drop (2*(Ku.toNat * Kv.toNat))).take (Ku.toNat * Kv.toNat))) = true →
        pyFloat (uPars.getD ui (.strV "")) = .ok u0 →
        pyFloat (uPars.getD (ui+1) (.strV "")) = .ok u1 →
        pyFloat (vPars.getD vi (.strV "")) = .ok v0 →
        pyFloat (vPars.getD (vi+1) (.strV "")) = .ok v1 →
        u1 = u0 ∨ v1 = v0 →
        parseOnePatch uPars vPars ui vi (ku :: kv :: pd2) = .error .degenerateInterval)
    ∧ (∀ (params : List Value) (s : SurfM), _decode_surf_params params = .ok s →
        (∀ i < s.nu.toNat, ∃ a b, pyFloat (s.uPars.getD i (.strV "")) = .ok a ∧
            pyFloat (s.uPars.getD (i+1) (.strV "")) = .ok b ∧ a ≠ b)
        ∧ (∀ j < s.nv.toNat, ∃ a b, pyFloat (s.vPars.getD j (.strV "")) = .ok a ∧
            pyFloat (s.vPars.getD (j+1) (.strV "")) = .ok b ∧ a ≠ b)) :=
  ⟨surf_invalid_count, onePatch_degenerate, decode_surf_ok_nondegen⟩

/-- C4 witness: the three parts instantiated at concrete inputs — a
zero patch count, a degenerate well-formed 1x1 patch, and the good
surface decode. -/
theorem c4_surf_count_and_degenerate_witness :
    _decode_surf_params [Value.intV 0, Value.intV 1] = .error .invalidCount
    ∧ parseOnePatch [Value.intV 0, Value.intV 0] [Value.intV 0, Value.intV 1] 0 0
        [Value.intV 1, Value.intV 1, Value.intV 5, Value.intV 6, Value.intV 7]
        = .error .degenerateInterval
    ∧ (∀ i < wSurfDec.nu.toNat, ∃ a b,
        pyFloat (wSurfDec.uPars.getD i (.strV "")) = .ok a ∧
        pyFloat (wSurfDec.uPars.getD (i+1) (.strV "")) = .ok b ∧ a ≠ b) :=
  ⟨c4_surf_count_and_degenerate.1 (Value.intV 0) (Value.intV 1) [] 0 1 rfl rfl
     (Or.inl (by decide)),
   c4_surf_count_and_degenerate.2.1 [Value.intV 0, Value.intV 0] [Value.intV 0, Value.intV 1]
     0 0 (Value.intV 1) (Value.intV 1) [Value.intV 5, Value.intV 6, Value.intV 7]
     1 1 0 0 0 1 rfl rfl (by decide) (by decide) (by decide) (by decide)
     (by decide) (by decide) (by decide) (by decide) (Or.inl rfl),
   (c4_surf_count_and_degenerate.2.2 wSurfParams wSurfDec (by decide)).1⟩

/-- The patch grid of positive counts starts at `(0, 0)`. -/
lemma patchIdxs_pos_head (a b : Nat) (ha : 0 < a) (hb : 0 < b) :
    ∃ t, patchIdxs a b = (0, 0) :: t := by
  obtain ⟨a', rfl⟩ : ∃ a', a = a' + 1 := ⟨a - 1, by omega⟩
  obtain ⟨b', rfl⟩ : ∃ b', b = b' + 1 := ⟨b - 1, by omega⟩
  unfold patchIdxs
  rw [List.range_succ_eq_map (n := a'), List.range_succ_eq_map (n := b')]
  rw [List.flatMap_cons]
  simp only [List.map_cons, List.cons_append]
  exact ⟨_, rfl⟩

/-- A failing first patch fails the whole patch loop with its error. -/
lemma parsePatches_head_err (uPars vPars : List Value) (t : List (Nat × Nat))
    (pd : List Value) (e : PErr)
    (h : parseOnePatch uPars vPars 0 0 pd = .error e) :
    parsePatches uPars vPars ((0, 0) :: t) pd = .error e := by
  simp only [parsePatches]
  rw [h]

/-- A non-positive token at the orders position fails the patch with
InvalidOrder. -/
lemma onePatch_invalid_order (uPars vPars : List Value) (ui vi : Nat)
    (ku kv : Value) (pd2 : List Value) (Ku Kv : Int)
    (hku : pyInt ku = .ok Ku) (hkv : pyInt kv = .ok Kv) (hKu : Ku ≤ 0) :
    parseOnePatch uPars vPars ui vi (ku :: kv :: pd2) = .error .invalidOrder := by
  simp only [parseOnePatch]
  rw [hku, hkv]
  simp [Or.inl hKu]

/-- C2 (counterexample): the claimed heuristic scan does not exist in
`_decode_surf_params`.  On a parameter list carrying one scalar padding
token (`0`) before two valid orders, the code fails with InvalidOrder,
while the decoder the spec describes (with the scan) succeeds. -/
theorem c2_counterexample :
    _decode_surf_params wC2Params = .error .invalidOrder
    ∧ decode_surf_params_specscan wC2Params = .ok wSurfDec :=
  ⟨by decide, by decide⟩

/-- C2 (amended): no scan is performed — the token found directly at the
cursor position after the two breakpoint vectors is consumed as the
first patch's u-order, and when it converts to a non-positive integer
the decode fails with InvalidOrder instead of skipping it. -/
theorem c2_direct_orders_no_scan :
    ∀ (v0 v1 : Value) (rest : List Value) (nu nv K1 K2 : Int) (k1 k2 : Value)
      (pdrest : List Value),
      pyInt v0 = .ok nu → pyInt v1 = .ok nv → 0 < nu → 0 < nv →
      ¬ (v0 :: v1 :: rest).length < 2 + (nu.toNat + 1) + (nv.toNat + 1) →
      (v0 :: v1 :: rest).drop (2 + (nu.toNat + 1) + (nv.toNat + 1)) = k1 :: k2 :: pdrest →
      pyInt k1 = .ok K1 → pyInt k2 = .ok K2 → K1 ≤ 0 →
      _decode_surf_params (v0 :: v1 :: rest) = .error .invalidOrder := by
  intro v0 v1 rest nu nv K1 K2 k1 k2 pdrest h0 h1 hnu hnv hlen hdrop hk1 hk2 hK1
  simp only [_decode_surf_params]
  rw [h0, h1]
  simp only [if_neg (show ¬ (nu ≤ 0 ∨ nv ≤ 0) by omega), if_neg hlen]
  obtain ⟨t, ht⟩ := patchIdxs_pos_head nu.toNat nv.toNat (by omega) (by omega)
  rw [ht, hdrop]
  rw [parsePatches_head_err _ _ t (k1 :: k2 :: pdrest) PErr.invalidOrder
    (onePatch_invalid_order _ _ 0 0 k1 k2 pdrest K1 K2 hk1 hk2 hK1)]

/-- C2 witness: the no-scan behaviour on the concrete padded list. -/
theorem c2_direct_orders_no_scan_witness :
    _decode_surf_params wC2Params = .error .invalidOrder :=
  c2_direct_orders_no_scan (Value.intV 1) (Value.intV 1)
    [Value.intV 0, Value.intV 1, Value.intV 0, Value.intV 1,
     Value.intV 0, Value.intV 1, Value.intV 1, Value.intV 5, Value.intV 6, Value.intV 7]
    1 1 0 1 (Value.intV 0) (Value.intV 1)
    [Value.intV 1, Value.intV 5, Value.intV 6, Value.intV 7]
    rfl rfl (by decide) (by decide) (by decide) (by decide) rfl rfl (by decide)

/-- C6 (counterexample): a CONS entity with valid SR/CV references but a
non-numeric token inside the p-curve parameter vector does not decode to
`pcurve = none` — the decode of the whole entity fails (Python's
`float()` raises), contradicting the claim that a malformed p-curve
block still succeeds. -/
theorem c6_counterexample :
    isRefWith 'S' 'R' (wConsBad.params.getD 0 (.strV "")) = true
    ∧ isRefWith 'C' 'V' (wConsBad.params.getD 1 (.strV "")) = true
    ∧ decode_cons_entity wConsBad = .error .valueError :=
  ⟨by decide, by decide, by decide⟩

/-- C6 (amended): when the p-curve mapping is absent — the token after
the references (and optional range) is missing or non-numeric — or its
parameter vector would overrun the parameter list, the decoder succeeds
with `pcurve = none`, preserving the surface and curve references.  (A
non-numeric token inside the parameter vector instead fails the whole
entity, and a malformed segment block yields a partial p-curve.) -/
theorem c6_absent_pcurve_none :
    ∀ (e : Entity) (p0 p1 : Value) (rest : List Value),
      e.command = "CONS" → e.params = p0 :: p1 :: rest →
      isRefWith 'S' 'R' p0 = true → isRefWith 'C' 'V' p1 = true →
      (e.params.length ≤ (consTRange e.params).2
        ∨ isNum (e.params.getD (consTRange e.params).2 (.strV "")) = false
        ∨ (∃ n : Int, _as_int (e.params.getD (consTRange e.params).2 (.strV "")) = .ok n ∧
            (e.params.length : Int) < (((consTRange e.params).2 + 1 : Nat) : Int) + (n + 1))) →
      decode_cons_entity e = .ok ⟨strOf p0, strOf p1, (consTRange e.params).1.1,
        (consTRange e.params).1.2, none⟩ := by
  intro e p0 p1 rest hcmd hparams hsr hcv hcond
  simp only [decode_cons_entity]
  rw [if_neg (by simp [hcmd])]
  rw [hparams] at hcond ⊢
  simp only [hsr, hcv, Bool.not_true, Bool.false_eq_true, if_false]
  rcases hcond with hlen | hnn | ⟨n, hn, hlt⟩
  · rw [if_pos (by simp; exact Or.inl (by simpa using hlen))]
  · rw [if_pos (by simp; exact Or.inr (by simpa using hnn))]
  · by_cases hfirst : ((p0 :: p1 :: rest).length ≤ (consTRange (p0 :: p1 :: rest)).2
        || !(isNum ((p0 :: p1 :: rest).getD (consTRange (p0 :: p1 :: rest)).2 (.strV "")))) = true
    · rw [if_pos hfirst]
    · rw [if_neg hfirst]
      rw [hn]
      simp only
      rw [if_pos hlt]

/-- C6 witness: the references-only CONS decodes to `pcurve = none` with
both references preserved. -/
theorem c6_absent_pcurve_none_witness :
    decode_cons_entity wConsMin = .ok ⟨strOf (Value.strV "SR1"), strOf (Value.strV "CV1"),
      (consTRange wConsMin.params).1.1, (consTRange wConsMin.params).1.2, none⟩ :=
  c6_absent_pcurve_none wConsMin (Value.strV "SR1") (Value.strV "CV1") [] rfl rfl
    (by decide) (by decide) (Or.inl (by decide))

/-- C7: in FACE decoding, a loop triple whose first element is not a CN
reference ends that loop's item parsing early and without error (the
cursor stays at the offending triple), and whatever loop list had been
accumulated before is a prefix of any successfully returned loop list —
prior loops are preserved. -/
theorem c7_face_loop_early_stop :
    ∀ (params : List Value),
      (∀ (rem i : Nat), i + 2 < params.length →
          isRefWith 'C' 'N' (params.getD i (.strV "")) = false →
          parseFaceItems params rem i = .ok ([], i))
      ∧ (∀ (fuel i : Nat) (acc res : List FLoop),
          parseFaceLoops params fuel i acc = .ok res → ∃ t, res = acc ++ t) := by
  intro params
  constructor
  · intro rem i hlt hcn
    cases rem with
    | zero => simp [parseFaceItems]
    | succ r =>
      simp only [parseFaceItems]
      rw [if_neg (by omega : ¬ params.length ≤ i + 2)]
      have hcn' : isRefWith 'C' 'N' (params[i]?.getD (Value.strV "")) = false := by
        simpa [List.getD] using hcn
      simp [hcn']
  · intro fuel
    induction fuel with
    | zero =>
      intro i acc res h
      simp only [parseFaceLoops, Except.ok.injEq] at h
      exact ⟨[], by simp [h]⟩
    | succ f ih =>
      intro i acc res h
      simp only [parseFaceLoops] at h
      by_cases hl : params.length ≤ i
      · rw [if_pos hl] at h
        simp only [Except.ok.injEq] at h
        exact ⟨[], by simp [h]⟩
      rw [if_neg hl] at h
      cases hc : isNum (params.getD i (.strV "")) with
      | false =>
        rw [hc] at h
        simp only [Bool.not_false, if_true, Except.ok.injEq] at h
        exact ⟨[], by simp [h]⟩
      | true =>
        rw [hc] at h
        simp only [Bool.not_true, Bool.false_eq_true, if_false] at h
        cases ha : _as_int (params.getD i (.strV "")) with
        | error e =>
          rw [ha] at h
          simp only [Except.ok.injEq] at h
          exact ⟨[], by simp [h]⟩
        | ok cnt =>
          rw [ha] at h
          simp only at h
          cases hitems : parseFaceItems params cnt.toNat (i+1) with
          | error e => rw [hitems] at h; simp at h
          | ok pr =>
            rw [hitems] at h
            obtain ⟨items, j⟩ := pr
            simp only at h
            cases hie : items.isEmpty with
            | true =>
              rw [hie] at h
              simp only [if_true, Except.ok.injEq] at h
              exact ⟨[], by simp [h]⟩
            | false =>
              rw [hie] at h
              simp only [Bool.false_eq_true, if_false] at h
              obtain ⟨t, ht⟩ := ih j (acc ++ [⟨items.length, items⟩]) res h
              exact ⟨⟨items.length, items⟩ :: t, by simp [ht]⟩

/-- C7 witness: on a concrete FACE parameter list whose first triple
starts with the non-CN token `XX`, the item loop stops early without
error, and a successful loop parse extends its accumulator. -/
theorem c7_face_loop_early_stop_witness :
    parseFaceItems wFaceParams 1 2 = .ok ([], 2)
    ∧ (∃ t, ([] : List FLoop) = [] ++ t) :=
  ⟨(c7_face_loop_early_stop wFaceParams).1 1 2 (by decide) (by decide),
   (c7_face_loop_early_stop wFaceParams).2 5 1 [] [] (by decide)⟩

/-- `find?` over an append scans the first list first. -/
lemma findq_append (p : Entity → Bool) :
    ∀ (l1 l2 : List Entity), (l1 ++ l2).find? p =
      match l1.find? p with
      | some x => some x
      | none => l2.find? p := by
  intro l1 l2
  induction l1 with
  | nil => simp
  | cons a t ih =>
    cases hp : p a with
    | true => simp [List.find?_cons_of_pos _ hp]
    | false =>
      have hneg : ¬ p a = true := by simp [hp]
      simp [List.find?_cons_of_neg _ hneg, ih]

/-- The `by_name` fold of `build_index` looks up the last entity stored
under a name, falling back to the initial map. -/
lemma byName_foldl :
    ∀ (es : List Entity) (f : String → Option Entity) (nm : String),
      (es.foldl (fun acc e => fun n => if n = e.name then some e else acc n) f) nm
        = ((es.reverse.find? (fun e => e.name == nm)).elim (f nm) some) := by
  intro es
  induction es with
  | nil => intro f nm; simp
  | cons e tl ih =>
    intro f nm
    simp only [List.foldl_cons, List.reverse_cons]
    rw [ih, findq_append]
    cases hf : tl.reverse.find? (fun x => x.name == nm) with
    | some x => simp
    | none =>
      simp only [Option.elim]
      by_cases he : e.name = nm
      · simp [List.find?_cons, he]
      · have he2 : ¬ nm = e.name := fun hh => he hh.symm
        simp [List.find?_cons, he, he2]

/-- C9: name collisions resolve to last-write-wins — for a model in
which at least two entities share a name, `get_entity` on that name
returns the entity occurring last in file order (the first match in the
reversed entity list). -/
theorem c9_last_write_wins (m : RModel) (nm : String)
    (_hdup : 2 ≤ (m.entities.filter (fun e => e.name == nm)).length) :
    get_entity (build_index m) nm = m.entities.reverse.find? (fun e => e.name == nm) := by
  rw [show get_entity (build_index m) nm
      = (m.entities.foldl (fun acc e => fun n => if n = e.name then some e else acc n)
          (fun _ => none)) nm from rfl]
  rw [byName_foldl]
  cases hf : m.entities.reverse.find? (fun e => e.name == nm) with
  | some x => simp
  | none => simp

/-- C9 witness: the duplicate-name model resolves `CV1` to the later
entity. -/
theorem c9_last_write_wins_witness :
    2 ≤ (wDupModel.entities.filter (fun e => e.name == "CV1")).length
    ∧ get_entity (build_index wDupModel) "CV1"
        = wDupModel.entities.reverse.find? (fun e => e.name == "CV1") :=
  ⟨by decide, c9_last_write_wins wDupModel "CV1" (by decide)⟩

/-- C1: on a file whose HEADER declares 3 lines and whose first captured
line lexically resembles a statement start (`XY1 = CURVE / ...`), the
Reader does capture exactly the 3 raw lines verbatim into the Header —
but, contradicting the claim, it also parses that header line as an
entity: the returned Model contains an entity named `XY1` whose
statement starts at line 2, inside the header's line range 2-4. -/
theorem c1_header_lines_also_parsed :
    ((read_vdafs wReaderRecs).header.map (fun h => h.lines)
      = some ["XY1 = CURVE / 1,0.,1.,1,5.", "SOME TEXT LINE", "ANOTHER LINE"])
    ∧ (read_vdafs wReaderRecs).entities.map (fun e => (e.name, e.linenoStart))
      = [("XY1", 2), ("CV1", 5)] :=
  ⟨by decide, by decide⟩
